import Mathlib

/-!
Shallow embedding of the `sentry-integration` adapters:
the redis hook (`redistracer`), the slog handlers (`sloghandler`,
`slogbreadcrumb`), the pgx query tracer (`pgxtracer`) and the HTTP
round tripper (`httpclient`), together with the small model of the
Sentry span API that they call into.
-/

namespace SentryIntegration

/-- Status of a Sentry span (model of `sentry.SpanStatus`). -/
inductive SpanStatus where
  | undefined
  | ok
  | internalError
  | permissionDenied
  | notFound
  | resourceExhausted
  | failedPrecondition
  | unauthenticated
  | alreadyExists
  | invalidArgument
  | deadlineExceeded
  | unimplemented
  | unavailable
  | unknown
deriving Repr, DecidableEq

/-- A value that can be stored in a span's data map (`map[string]any`
restricted to the value shapes the adapters actually store). -/
inductive SpanValue where
  | vstr (s : String)
  | vbool (b : Bool)
  | vint (i : Int)
deriving Repr, DecidableEq

/-- Go-map update on an association list: replace the first binding of
the key, or append a fresh binding. -/
def mapSet {α : Type} : List (String × α) → String → α → List (String × α)
  | [], k, v => [(k, v)]
  | (k', v') :: rest, k, v =>
      if k' = k then (k, v) :: rest else (k', v') :: mapSet rest k v

/-- Go-map lookup on an association list. -/
def mapGet {α : Type} : List (String × α) → String → Option α
  | [], _ => none
  | (k', v') :: rest, k => if k' = k then some v' else mapGet rest k

/-- Model of a `sentry.Span`: operation name, transaction name,
description, data map, tags, terminal status, and whether `Finish`
was called. -/
structure Span where
  op : String
  transactionName : String
  description : String
  data : List (String × SpanValue)
  tags : List (String × String)
  status : SpanStatus
  finished : Bool
deriving Repr, DecidableEq

/-- `span.SetData(key, value)`. -/
def Span.setData (s : Span) (k : String) (v : SpanValue) : Span :=
  { s with data := mapSet s.data k v }

/-- `span.SetTag(key, value)` (assoc-list with Go map semantics). -/
def Span.setTag (s : Span) (k v : String) : Span :=
  { s with tags :=
      if s.tags.any (fun p => p.1 = k)
      then s.tags.map (fun p => if p.1 = k then (k, v) else p)
      else s.tags ++ [(k, v)] }

/-- Whether the first character list is a prefix of the second. -/
def charsPrefixOf : List Char → List Char → Bool
  | [], _ => true
  | _ :: _, [] => false
  | a :: as, b :: bs => a = b && charsPrefixOf as bs

/-- Whether `needle` occurs inside the second character list. -/
def charsContain (needle : List Char) : List Char → Bool
  | [] => charsPrefixOf needle []
  | b :: bs => charsPrefixOf needle (b :: bs) || charsContain needle bs

/-- Model of Go's `strings.HasPrefix(s, p)`. -/
def strHasPrefix (s p : String) : Bool :=
  charsPrefixOf p.toList s.toList

end SentryIntegration

namespace Redistracer

open SentryIntegration

/-- Model of a `redis.Cmder`: the command name, the full name and the
argument list rendered as strings. -/
structure Cmd where
  name : String
  fullName : String
  args : List String
deriving Repr, DecidableEq

/-- Model of `rediscmd.CmdString`: the command rendered as text. -/
def cmdString (c : Cmd) : String :=
  String.intercalate " " (c.fullName :: c.args.drop 1)

/-- Model of `rediscmd.CmdsString` on a batch: a human-readable summary
and the concatenated command text. -/
def cmdsString (cs : List Cmd) : String × String :=
  (String.intercalate " " (cs.map (·.name)),
   String.intercalate "\n" (cs.map cmdString))

/-- Errors returned by the wrapped redis delegate: the `redis.Nil`
"not found" sentinel, or any other error with its message. -/
inductive RedisError where
  | nil
  | other (msg : String)
deriving Repr, DecidableEq

/-- The `redistracer` configuration (`config` in options.go):
the span data accumulated from options and the statement-logging
toggle. -/
structure Config where
  spanData : List (String × SpanValue)
  dbStmtEnabled : Bool
deriving Repr, DecidableEq

/-- Ambient caller information, the model of what the best-effort
stack walk `funcFileLine` reports. -/
structure CodeLoc where
  func : String
  file : String
  line : Int
deriving Repr, DecidableEq

/-- Model of Go's `strings.ToLower` (external stdlib) on the ASCII
command names the hook compares. -/
def toLowerAscii (s : String) : String :=
  String.mk (s.data.map fun c =>
    if 'A' ≤ c ∧ c ≤ 'Z' then Char.ofNat (c.toNat + 32) else c)

/-- The span-operation classification of `ProcessHook`
(redistracer.go lines 129-145): the lower-cased command name is
matched against the fixed table. -/
def spanOperationOf (name : String) : String :=
  let n := toLowerAscii name
  if n = "get" ∨ n = "mget" ∨ n = "hget" ∨ n = "hgetall" ∨ n = "hmget" then
    "cache.get"
  else if n = "set" ∨ n = "setex" ∨ n = "mset" ∨ n = "hmset" ∨ n = "hset" ∨
      n = "hsetnx" ∨ n = "lset" ∨ n = "msetnx" ∨ n = "psetex" ∨ n = "setbit" ∨
      n = "setnx" ∨ n = "setrange" then
    "cache.put"
  else if n = "del" ∨ n = "hdel" then
    "cache.remove"
  else if n = "flushall" ∨ n = "flushdb" then
    "cache.flush"
  else
    "db.redis"

/-- Result of a call through `ProcessHook`: the error handed back to
the caller and the spans created by the hook, in their final state. -/
structure ProcessResult where
  err : Option RedisError
  spans : List Span
deriving Repr, DecidableEq

/-- Model of `tracingHook.ProcessHook` (redistracer.go lines 106-171).
The parent span, if any, is the ambient context; the delegate is the
wrapped `redis.ProcessHook`. -/
def processHook (conf : Config) (loc : CodeLoc)
    (delegate : Cmd → Option RedisError)
    (parentSpan : Option Span) (cmd : Cmd) : ProcessResult :=
  match parentSpan with
  | none => { err := delegate cmd, spans := [] }
  | some _ =>
      let spanData := conf.spanData
      let spanData := mapSet spanData "code.function" (.vstr loc.func)
      let spanData := mapSet spanData "code.filepath" (.vstr loc.file)
      let spanData := mapSet spanData "code.lineno" (.vint loc.line)
      let spanData :=
        if conf.dbStmtEnabled then
          mapSet spanData "db.statement" (.vstr (cmdString cmd))
        else spanData
      let span : Span :=
        { op := spanOperationOf cmd.name
          transactionName := ""
          description := cmd.fullName
          data := spanData
          tags := []
          status := .undefined
          finished := false }
      let span :=
        if cmd.args.length > 1 then
          span.setData "cache.key" (.vstr (cmd.args.getD 1 ""))
        else span
      match delegate cmd with
      | some e =>
          let span :=
            if e = RedisError.nil then span.setData "cache.hit" (.vbool false)
            else span
          let span := span.setData "cache.success" (.vbool false)
          let span := { span with status := .internalError, finished := true }
          { err := some e, spans := [span] }
      | none =>
          let span := span.setData "cache.hit" (.vbool true)
          let span := span.setData "cache.success" (.vbool true)
          let span := { span with status := .ok, finished := true }
          { err := none, spans := [span] }

/-- Model of `tracingHook.ProcessPipelineHook`
(redistracer.go lines 173-210). Note that the locally built
`spanData` map (with `db.redis.num_cmd` and, when enabled,
`db.statement`) is discarded: the span's data is assigned
`th.conf.spanData`, exactly as the source does. -/
def processPipelineHook (conf : Config) (loc : CodeLoc)
    (delegate : List Cmd → Option RedisError)
    (parentSpan : Option Span) (cmds : List Cmd) : ProcessResult :=
  match parentSpan with
  | none => { err := delegate cmds, spans := [] }
  | some _ =>
      let spanData := conf.spanData
      let spanData := mapSet spanData "code.function" (.vstr loc.func)
      let spanData := mapSet spanData "code.filepath" (.vstr loc.file)
      let spanData := mapSet spanData "code.lineno" (.vint loc.line)
      let spanData := mapSet spanData "db.redis.num_cmd" (.vint cmds.length)
      let summary := (cmdsString cmds).1
      let allCmdsText := (cmdsString cmds).2
      let spanData :=
        if conf.dbStmtEnabled then
          mapSet spanData "db.statement" (.vstr allCmdsText)
        else spanData
      let _ := spanData
      let span : Span :=
        { op := "redis.pipeline " ++ summary
          transactionName := ""
          description := (cmds.headD ⟨"", "", []⟩).fullName
          data := conf.spanData
          tags := []
          status := .undefined
          finished := false }
      match delegate cmds with
      | some e =>
          { err := some e, spans := [{ span with status := .internalError, finished := true }] }
      | none =>
          { err := none, spans := [{ span with status := .ok, finished := true }] }

end Redistracer

namespace Sloghandler

open SentryIntegration

/-- The capabilities a `slog.KindAny` payload may offer, in the order
the source probes them: `fmt.Stringer`, `error`, `json.Marshaler`
(whose call may itself fail), `slog.LogValuer`. -/
structure AnyVal where
  stringer : Option String
  errText : Option String
  jsonOut : Option (Option String)
  logValue : Option String
deriving Repr

/-- A `slog.Value`, by kind. Durations are nanosecond counts, times
are unix nanosecond instants, floats are carried as their IEEE-754
bit pattern (the adapters only forward them verbatim). -/
inductive SlogValue where
  | vany (a : AnyVal)
  | vbool (b : Bool)
  | vduration (ns : Int)
  | vfloat (bits : Nat)
  | vint (i : Int)
  | vstr (s : String)
  | vtime (t : Int)
  | vuint (n : Nat)
  | vgroup (attrs : List (String × SlogValue))
  | vlogValuer (s : String)
deriving Repr

/-- A `slog.Attr` is a key together with a value. -/
abbrev SlogAttr := String × SlogValue

/-- Model of `sentry-go`'s `attribute.Builder` values the handler
produces. -/
inductive AttrBuilder where
  | astr (key s : String)
  | abool (key : String) (b : Bool)
  | afloat (key : String) (bits : Nat)
  | aint (key : String) (i : Int)
deriving Repr, DecidableEq

/-- Model of Go's `time.Duration.String` rendering (external stdlib;
the adapter forwards the rendered text verbatim). -/
def durationString (ns : Int) : String := toString ns ++ "ns"

/-- Model of `Time.Format(time.RFC3339)` (external stdlib; the adapter
forwards the rendered text verbatim). -/
def timeRFC3339 (t : Int) : String := "rfc3339:" ++ toString t

/-- Go's `int64(x)` conversion of a `uint64` value. -/
def uint64ToInt64 (n : Nat) : Int :=
  if n % 2 ^ 64 < 2 ^ 63 then ((n % 2 ^ 64 : Nat) : Int)
  else ((n % 2 ^ 64 : Nat) : Int) - 2 ^ 64

/-- The `slog.KindAny` branch of `slogAttrToSentryAttr`: probe
`fmt.Stringer`, then `error`, then `json.Marshaler` (falling through
when marshalling fails), then `slog.LogValuer`; drop the attribute if
none applies. -/
def convAny (k : String) (a : AnyVal) : List AttrBuilder :=
  match a.stringer with
  | some s => [.astr k s]
  | none =>
    match a.errText with
    | some e => [.astr k e]
    | none =>
      match a.jsonOut with
      | some (some out) => [.astr k out]
      | _ =>
        match a.logValue with
        | some v => [.astr k v]
        | none => []

mutual

/-- Model of `slogAttrToSentryAttr` (sloghandler, lines 35-89):
convert one `slog.Attr` into the sentry attribute builders it
contributes; a group contributes the conversions of its children. -/
def slogAttrToSentryAttr : SlogAttr → List AttrBuilder
  | (k, .vany a) => convAny k a
  | (k, .vbool b) => [.abool k b]
  | (k, .vduration ns) => [.astr k (durationString ns)]
  | (k, .vfloat bits) => [.afloat k bits]
  | (k, .vint i) => [.aint k i]
  | (k, .vstr s) => [.astr k s]
  | (k, .vtime t) => [.astr k (timeRFC3339 t)]
  | (k, .vuint n) => [.aint k (uint64ToInt64 n)]
  | (_, .vgroup attrs) => convList attrs
  | (k, .vlogValuer s) => [.astr k s]

/-- The loop appending `slogAttrToSentryAttr` of each attribute in
order, as in the group case and in `Handle`. -/
def convList : List SlogAttr → List AttrBuilder
  | [] => []
  | a :: rest => slogAttrToSentryAttr a ++ convList rest

end

mutual

/-- The leaf (non-group) attributes an attribute transitively
contains, in conversion order: a group contributes its children's
leaves, anything else is itself a leaf. -/
def leafAttrs : SlogAttr → List SlogAttr
  | (_, .vgroup attrs) => leafList attrs
  | a => [a]

/-- Leaves of a list of attributes, in order. -/
def leafList : List SlogAttr → List SlogAttr
  | [] => []
  | a :: rest => leafAttrs a ++ leafList rest

end

/-- The handler state of `SentrySlogHandler`: accumulated attributes,
group label and minimum level (a `slog.Level` is an integer;
debug = -4, info = 0, warn = 4, error = 8). -/
structure SentrySlogHandler where
  attributes : List SlogAttr
  group : String
  level : Int
deriving Repr

/-- `SentrySlogHandler.Enabled`. -/
def SentrySlogHandler.enabledAt (s : SentrySlogHandler) (level : Int) : Bool :=
  level ≥ s.level

/-- A `slog.Record`: message, level and the record's own attributes. -/
structure Record where
  message : String
  level : Int
  attrs : List SlogAttr
deriving Repr

/-- The four leveled logger entry points of the reporting backend. -/
inductive EmitLevel where
  | debug | info | warn | error
deriving Repr, DecidableEq

/-- What a call to `SentrySlogHandler.Handle` does: the attributes set
on the per-call logger, the leveled log call emitted (if any), and the
error returned to the caller. -/
structure HandleResult where
  loggerAttrs : List AttrBuilder
  emitted : Option (EmitLevel × String)
  returnedError : Option String
deriving Repr

/-- Model of `SentrySlogHandler.Handle` (sloghandler, lines 97-126):
assemble the handler attributes, the group label (when non-empty) and
the record attributes, set them on the per-call logger, then switch on
the record level over the four exact standard levels (no default
branch), and return nil. -/
def SentrySlogHandler.handle (s : SentrySlogHandler) (record : Record) : HandleResult :=
  let sentryAttributes := convList s.attributes
  let sentryAttributes :=
    if s.group ≠ "" then sentryAttributes ++ [.astr "group" s.group]
    else sentryAttributes
  let sentryAttributes := sentryAttributes ++ convList record.attrs
  let emitted : Option (EmitLevel × String) :=
    if record.level = -4 then some (.debug, record.message)
    else if record.level = 0 then some (.info, record.message)
    else if record.level = 4 then some (.warn, record.message)
    else if record.level = 8 then some (.error, record.message)
    else none
  { loggerAttrs := sentryAttributes, emitted := emitted, returnedError := none }

/-- Result of a `WithAttrs`/`WithGroup` derivation on a handler with
pointer receiver: the handler value returned to the caller, the state
of the receiver after the call, and whether the returned value is the
receiver itself (the same pointer) rather than a freshly allocated
instance. -/
structure DeriveResult (H : Type) where
  returned : H
  receiverAfter : H
  returnsReceiver : Bool
deriving Repr

/-- Model of `SentrySlogHandler.WithAttrs` (sloghandler, lines
129-132): `s.attributes = append(s.attributes, attrs...)` mutates the
receiver in place and `return s` hands back the same instance. -/
def SentrySlogHandler.withAttrs (s : SentrySlogHandler) (attrs : List SlogAttr) :
    DeriveResult SentrySlogHandler :=
  let s' := { s with attributes := s.attributes ++ attrs }
  { returned := s', receiverAfter := s', returnsReceiver := true }

/-- Model of `SentrySlogHandler.WithGroup` (sloghandler, lines
135-138): sets `s.group` on the receiver and returns the same
instance. -/
def SentrySlogHandler.withGroup (s : SentrySlogHandler) (name : String) :
    DeriveResult SentrySlogHandler :=
  let s' := { s with group := name }
  { returned := s', receiverAfter := s', returnsReceiver := true }

end Sloghandler

namespace Slogbreadcrumb

open SentryIntegration
open Sloghandler (SlogAttr SlogValue)

/-- The `slogbreadcrumb.Handler` state. -/
structure Handler where
  enable : Bool
  level : Int
  attributes : List SlogAttr
  group : String
deriving Repr

/-- `Handler.Enabled` (slogbreadcrumb.go lines 49-55). -/
def Handler.enabledAt (s : Handler) (level : Int) : Bool :=
  if !s.enable then false
  else level ≥ s.level

/-- Sentry breadcrumb levels. -/
inductive SentryLevel where
  | debug | info | warning | error | fatal
deriving Repr, DecidableEq

/-- `toSentryLevel` (slogbreadcrumb.go lines 34-47): the four standard
levels map across, anything else defaults to info. -/
def toSentryLevel (level : Int) : SentryLevel :=
  if level = -4 then .debug
  else if level = 0 then .info
  else if level = 4 then .warning
  else if level = 8 then .error
  else .info

/-- A breadcrumb as handed to `hub.AddBreadcrumb`; data values are the
raw slog values (the group label is stored as a string value). -/
structure Breadcrumb where
  type : String
  category : String
  message : String
  data : List (String × SlogValue)
  level : SentryLevel
deriving Repr

/-- Model of `Handler.Handle` (slogbreadcrumb.go lines 57-81): no-op
when the context carries no hub; otherwise collect the accumulated
attributes and group label into the data map and append one
breadcrumb. Returns the breadcrumb appended (if any); the Go function
always returns nil. -/
def Handler.handle (s : Handler) (hubPresent : Bool) (record : Sloghandler.Record) :
    Option Breadcrumb :=
  if !hubPresent then none
  else
    let data := s.attributes.foldl (fun d a => mapSet d a.1 a.2) []
    let data :=
      if s.group ≠ "" then mapSet data "group" (.vstr s.group)
      else data
    some
      { type := "log"
        category := "log"
        message := record.message
        data := data
        level := toSentryLevel record.level }

/-- Model of `Handler.WithAttrs` (slogbreadcrumb.go lines 83-90): a
fresh `&Handler{...}` is returned, the receiver is untouched. -/
def Handler.withAttrs (s : Handler) (attrs : List SlogAttr) :
    Sloghandler.DeriveResult Handler :=
  { returned := { s with attributes := s.attributes ++ attrs }
    receiverAfter := s
    returnsReceiver := false }

/-- Model of `Handler.WithGroup` (slogbreadcrumb.go lines 92-99): a
fresh `&Handler{...}` with the new group name is returned, the
receiver is untouched. -/
def Handler.withGroup (s : Handler) (name : String) :
    Sloghandler.DeriveResult Handler :=
  { returned := { s with group := name }
    receiverAfter := s
    returnsReceiver := false }

end Slogbreadcrumb

namespace Pgxtracer

open SentryIntegration

/-- The `pgxtracer.Tracer`: configured tags. -/
structure Tracer where
  tags : List (String × String)
deriving Repr, DecidableEq

/-- The ambient context, modelled by the span it carries (if any). -/
structure Ctx where
  span : Option Span
deriving Repr, DecidableEq

/-- Model of pgx's `CommandTag`: the driver's command-tag string. -/
structure CommandTag where
  tag : String
deriving Repr, DecidableEq

/-- pgx `CommandTag.Insert()`: the tag string starts with INSERT. -/
def CommandTag.insertTag (ct : CommandTag) : Bool := strHasPrefix ct.tag "INSERT"

/-- pgx `CommandTag.Select()`. -/
def CommandTag.selectTag (ct : CommandTag) : Bool := strHasPrefix ct.tag "SELECT"

/-- pgx `CommandTag.Delete()`. -/
def CommandTag.deleteTag (ct : CommandTag) : Bool := strHasPrefix ct.tag "DELETE"

/-- pgx `CommandTag.Update()`. -/
def CommandTag.updateTag (ct : CommandTag) : Bool := strHasPrefix ct.tag "UPDATE"

/-- `pgx.TraceQueryEndData`: the command tag and the query error. -/
structure TraceQueryEndData where
  commandTag : CommandTag
  queryErr : Option String
deriving Repr, DecidableEq

/-- The live connection configuration read in `TraceQueryEnd`. -/
structure ConnConfig where
  database : String
  host : String
  port : Nat
deriving Repr, DecidableEq

/-- Model of `Tracer.TraceQueryStart` (pgxtracer, lines 65-73): start
a span unconditionally (`sentry.StartSpan` never returns nil, so the
defensive nil branch is dead), set `db.system`, and return a context
carrying the new span. -/
def Tracer.traceQueryStart (_ : Tracer) (_ : Ctx) (sql : String) : Ctx :=
  let span : Span :=
    { op := "db.sql.query"
      transactionName := sql
      description := sql
      data := []
      tags := []
      status := .undefined
      finished := false }
  let span := span.setData "db.system" (.vstr "postgresql")
  { span := some span }

/-- Model of `Tracer.TraceQueryEnd` (pgxtracer, lines 75-109): no-op
when the context carries no span; otherwise apply configured tags,
classify the command tag into `db.operation`, attach the connection
metadata when available, mark the error, and finish the span. The
result is the finished span, or none when the call was a no-op. -/
def Tracer.traceQueryEnd (t : Tracer) (ctx : Ctx) (config : Option ConnConfig)
    (data : TraceQueryEndData) : Option Span :=
  match ctx.span with
  | none => none
  | some span =>
      let span := t.tags.foldl (fun sp kv => sp.setTag kv.1 kv.2) span
      let span :=
        if data.commandTag.insertTag then span.setData "db.operation" (.vstr "INSERT")
        else if data.commandTag.selectTag then span.setData "db.operation" (.vstr "SELECT")
        else if data.commandTag.deleteTag then span.setData "db.operation" (.vstr "DELETE")
        else if data.commandTag.updateTag then span.setData "db.operation" (.vstr "UPDATE")
        else span.setData "db.operation" (.vstr data.commandTag.tag)
      let span :=
        match config with
        | some c =>
            ((span.setData "db.name" (.vstr c.database)).setData
              "server.address" (.vstr c.host)).setData
              "server.port" (.vstr (toString (c.port % 2 ^ 16)))
        | none => span
      let span :=
        match data.queryErr with
        | some e => ({ span with status := .internalError }).setData "error" (.vstr e)
        | none => span
      some { span with finished := true }

end Pgxtracer

namespace Httpclient

open SentryIntegration

/-- A parsed request URL (`net/url.URL`), restricted to the parts
this adapter reads. -/
structure URL where
  scheme : String
  host : String
  path : String
  rawQuery : String
  fragment : String
deriving Repr, DecidableEq

/-- Model of `url.URL.String()` for the component shapes above. -/
def URL.urlString (u : URL) : String :=
  u.scheme ++ "://" ++ u.host ++ u.path ++
    (if u.rawQuery ≠ "" then "?" ++ u.rawQuery else "") ++
    (if u.fragment ≠ "" then "#" ++ u.fragment else "")

/-- An outgoing HTTP request: method, URL, headers, and the parent
span carried by its context (if any). -/
structure Request where
  method : String
  url : URL
  headers : List (String × String)
  parentSpan : Option Span
deriving Repr, DecidableEq

/-- `request.Header.Add(key, value)`. -/
def Request.addHeader (r : Request) (k v : String) : Request :=
  { r with headers := r.headers ++ [(k, v)] }

/-- An HTTP response: numeric status code, status text, content
length. -/
structure Response where
  statusCode : Nat
  statusText : String
  contentLength : Int
deriving Repr, DecidableEq

/-- Model of Go's `strings.Contains(s, substr)`. -/
def strContains (s substr : String) : Bool :=
  charsContain substr.toList s.toList

/-- The propagation-target loop of `RoundTrip` (httpclient, lines
73-79): continue past a target contained in the URL string, return
(pass through) at the first target that is not. The loop falls
through — tracing proceeds — only when every target matched. -/
def propagationAllows (urlStr : String) : List String → Bool
  | [] => true
  | t :: rest =>
      if strContains urlStr t then propagationAllows urlStr rest
      else false

/-- Model of `sentry.Span.ToBaggage` (reporting SDK: renders the
span's trace context). -/
def spanToBaggage (sp : Span) : String :=
  "sentry-transaction=" ++ sp.transactionName

/-- Model of `sentry.Span.ToSentryTrace` (reporting SDK). -/
def spanToSentryTrace (sp : Span) : String :=
  "trace-" ++ sp.op ++ "-" ++ sp.transactionName

/-- Model of `sentry.HTTPtoSpanStatus` (reporting SDK's fixed
HTTP-status-to-outcome table). -/
def httpToSpanStatus (code : Nat) : SpanStatus :=
  if code < 400 then .ok
  else if code < 500 then
    if code = 403 then .permissionDenied
    else if code = 404 then .notFound
    else if code = 429 then .resourceExhausted
    else if code = 413 then .failedPrecondition
    else if code = 401 then .unauthenticated
    else if code = 409 then .alreadyExists
    else .invalidArgument
  else if code < 600 then
    if code = 504 then .deadlineExceeded
    else if code = 501 then .unimplemented
    else if code = 503 then .unavailable
    else .internalError
  else .unknown

/-- The `SentryRoundTripper` state: the propagation-target allow-list
and the configured tags (the wrapped transport is passed to the
round-trip function as the delegate). -/
structure SentryRoundTripper where
  tracePropagationTargets : List String
  tags : List (String × String)
deriving Repr, DecidableEq

/-- Result of a round trip: the response and error handed back, the
request as it was passed to the delegate, and the spans created by
the wrapper, in their final state. -/
structure RoundTripResult where
  response : Option Response
  err : Option String
  sentRequest : Request
  spans : List Span
deriving Repr, DecidableEq

/-- Model of `SentryRoundTripper.RoundTrip` (httpclient, lines
61-104): pass through without a span when the context carries no
parent span, or when a non-empty propagation-target list does not
fully match the URL string; otherwise start one span named
`method + " " + URL path`, record query/fragment/method data, add the
`Baggage` and `Sentry-Trace` headers, delegate, and record the
response status and content length when a response was obtained. -/
def SentryRoundTripper.roundTrip (s : SentryRoundTripper)
    (delegate : Request → Option Response × Option String)
    (request : Request) : RoundTripResult :=
  match request.parentSpan with
  | none =>
      let r := delegate request
      { response := r.1, err := r.2, sentRequest := request, spans := [] }
  | some _ =>
      if s.tracePropagationTargets.length > 0 &&
          !propagationAllows request.url.urlString s.tracePropagationTargets then
        let r := delegate request
        { response := r.1, err := r.2, sentRequest := request, spans := [] }
      else
        let cleanRequestURL := request.url.path
        let span : Span :=
          { op := "http.client"
            transactionName := request.method ++ " " ++ cleanRequestURL
            description := ""
            data := []
            tags := s.tags
            status := .undefined
            finished := false }
        let span := span.setData "http.query" (.vstr request.url.rawQuery)
        let span := span.setData "http.fragment" (.vstr request.url.fragment)
        let span := span.setData "http.request.method" (.vstr request.method)
        let request := request.addHeader "Baggage" (spanToBaggage span)
        let request := request.addHeader "Sentry-Trace" (spanToSentryTrace span)
        let r := delegate request
        let span :=
          match r.1 with
          | some resp =>
              (({ span with status := httpToSpanStatus resp.statusCode
                }).setData "http.response.status_code" (.vstr resp.statusText)).setData
                "http.response_content_length" (.vstr (toString resp.contentLength))
          | none => span
        let span := { span with finished := true }
        { response := r.1, err := r.2, sentRequest := request, spans := [span] }

end Httpclient

namespace SentryIntegration

theorem mapGet_mapSet_self {α : Type} (l : List (String × α)) (k : String) (v : α) :
    mapGet (mapSet l k v) k = some v := by
  induction l with
  | nil => simp [mapSet, mapGet]
  | cons p rest ih =>
      obtain ⟨k', v'⟩ := p
      by_cases h : k' = k
      · simp [mapSet, h, mapGet]
      · simp [mapSet, h, mapGet, ih]

theorem mapGet_mapSet_ne {α : Type} (l : List (String × α)) {k k' : String} (v : α)
    (h : k' ≠ k) : mapGet (mapSet l k' v) k = mapGet l k := by
  induction l with
  | nil => simp [mapSet, mapGet, h]
  | cons p rest ih =>
      obtain ⟨k'', v''⟩ := p
      by_cases h2 : k'' = k'
      · subst h2
        simp [mapSet, mapGet, h]
      · by_cases h3 : k'' = k
        · subst h3
          simp [mapSet, h2, mapGet]
        · simp [mapSet, h2, mapGet, h3, ih]

/-- Sample parent span used by concrete witnesses. -/
def sampleSpan : Span :=
  { op := "parent"
    transactionName := ""
    description := ""
    data := []
    tags := []
    status := .undefined
    finished := false }

end SentryIntegration

namespace Httpclient

open SentryIntegration

theorem propagationAllows_false_iff (u : String) (l : List String) :
    propagationAllows u l = false ↔ ∃ t ∈ l, strContains u t = false := by
  induction l with
  | nil => simp [propagationAllows]
  | cons t rest ih =>
      by_cases h : strContains u t
      · simp [propagationAllows, h, ih]
      · simp only [Bool.not_eq_true] at h
        simp [propagationAllows, h]

theorem propagationAllows_true_iff (u : String) (l : List String) :
    propagationAllows u l = true ↔ ∀ t ∈ l, strContains u t = true := by
  induction l with
  | nil => simp [propagationAllows]
  | cons t rest ih =>
      by_cases h : strContains u t
      · simp [propagationAllows, h, ih]
      · simp only [Bool.not_eq_true] at h
        simp [propagationAllows, h]

end Httpclient

open SentryIntegration

/-- Claim C3: for every cache command processed through the
single-command hook or the pipelined hook, and for every HTTP round
trip, if the ambient context carries no parent span then the wrapped
delegate is invoked directly and its result and error are returned
unchanged, and no span is created. -/
theorem C3_no_parent_passthrough :
    (∀ (conf : Redistracer.Config) (loc : Redistracer.CodeLoc)
        (delegate : Redistracer.Cmd → Option Redistracer.RedisError)
        (cmd : Redistracer.Cmd),
        Redistracer.processHook conf loc delegate none cmd =
          { err := delegate cmd, spans := [] }) ∧
    (∀ (conf : Redistracer.Config) (loc : Redistracer.CodeLoc)
        (delegate : List Redistracer.Cmd → Option Redistracer.RedisError)
        (cmds : List Redistracer.Cmd),
        Redistracer.processPipelineHook conf loc delegate none cmds =
          { err := delegate cmds, spans := [] }) ∧
    (∀ (s : Httpclient.SentryRoundTripper)
        (delegate : Httpclient.Request → Option Httpclient.Response × Option String)
        (method : String) (url : Httpclient.URL) (headers : List (String × String)),
        s.roundTrip delegate ⟨method, url, headers, none⟩ =
          { response := (delegate ⟨method, url, headers, none⟩).1
            err := (delegate ⟨method, url, headers, none⟩).2
            sentRequest := ⟨method, url, headers, none⟩
            spans := [] }) :=
  ⟨fun _ _ _ _ => rfl, fun _ _ _ _ => rfl, fun _ _ _ _ _ => rfl⟩

/-- Claim C4: for every cache command name, compared case-insensitively,
the GET family classifies as "cache.get", the SET family as
"cache.put", the DEL family as "cache.remove", the FLUSH family as
"cache.flush", and any other name as the generic "db.redis" label;
the single-command hook's span carries exactly this operation. -/
theorem C4_cache_command_classification :
    (∀ name : String,
        Redistracer.toLowerAscii name ∈ ["get", "mget", "hget", "hgetall", "hmget"] →
        Redistracer.spanOperationOf name = "cache.get") ∧
    (∀ name : String,
        Redistracer.toLowerAscii name ∈ ["set", "setex", "mset", "hmset", "hset", "hsetnx",
          "lset", "msetnx", "psetex", "setbit", "setnx", "setrange"] →
        Redistracer.spanOperationOf name = "cache.put") ∧
    (∀ name : String,
        Redistracer.toLowerAscii name ∈ ["del", "hdel"] →
        Redistracer.spanOperationOf name = "cache.remove") ∧
    (∀ name : String,
        Redistracer.toLowerAscii name ∈ ["flushall", "flushdb"] →
        Redistracer.spanOperationOf name = "cache.flush") ∧
    (∀ name : String,
        Redistracer.toLowerAscii name ∉ ["get", "mget", "hget", "hgetall", "hmget", "set",
          "setex", "mset", "hmset", "hset", "hsetnx", "lset", "msetnx",
          "psetex", "setbit", "setnx", "setrange", "del", "hdel",
          "flushall", "flushdb"] →
        Redistracer.spanOperationOf name = "db.redis") ∧
    (∀ (conf : Redistracer.Config) (loc : Redistracer.CodeLoc)
        (delegate : Redistracer.Cmd → Option Redistracer.RedisError)
        (p : Span) (cmd : Redistracer.Cmd),
        (Redistracer.processHook conf loc delegate (some p) cmd).spans.map Span.op =
          [Redistracer.spanOperationOf cmd.name]) := by
  refine ⟨?_, ?_, ?_, ?_, ?_, ?_⟩
  · intro name h
    simp only [List.mem_cons, List.not_mem_nil, or_false] at h
    rcases h with h | h | h | h | h <;> simp [Redistracer.spanOperationOf, h]
  · intro name h
    simp only [List.mem_cons, List.not_mem_nil, or_false] at h
    rcases h with h | h | h | h | h | h | h | h | h | h | h | h <;>
      simp [Redistracer.spanOperationOf, h]
  · intro name h
    simp only [List.mem_cons, List.not_mem_nil, or_false] at h
    rcases h with h | h <;> simp [Redistracer.spanOperationOf, h]
  · intro name h
    simp only [List.mem_cons, List.not_mem_nil, or_false] at h
    rcases h with h | h <;> simp [Redistracer.spanOperationOf, h]
  · intro name h
    simp only [List.mem_cons, List.not_mem_nil, or_false, not_or] at h
    obtain ⟨h1, h2, h3, h4, h5, h6, h7, h8, h9, h10, h11, h12, h13, h14,
      h15, h16, h17, h18, h19, h20, h21⟩ := h
    simp [Redistracer.spanOperationOf, h1, h2, h3, h4, h5, h6, h7, h8, h9,
      h10, h11, h12, h13, h14, h15, h16, h17, h18, h19, h20, h21]
  · intro conf loc delegate p cmd
    cases hd : delegate cmd <;>
      simp [Redistracer.processHook, hd, Span.setData] <;>
      split_ifs <;> simp

/-- Claim C5: when the single-command cache hook's wrapped call
returns the redis.Nil "not found" sentinel, the span records
cache.hit = false and cache.success = false, the span status is set
to the internal-error outcome, and the sentinel error is returned
unchanged to the caller. -/
theorem C5_redis_nil_miss (conf : Redistracer.Config) (loc : Redistracer.CodeLoc)
    (p : Span) (cmd : Redistracer.Cmd)
    (delegate : Redistracer.Cmd → Option Redistracer.RedisError)
    (h : delegate cmd = some Redistracer.RedisError.nil) :
    (Redistracer.processHook conf loc delegate (some p) cmd).err =
      some Redistracer.RedisError.nil ∧
    ∃ sp : Span,
      (Redistracer.processHook conf loc delegate (some p) cmd).spans = [sp] ∧
      mapGet sp.data "cache.hit" = some (.vbool false) ∧
      mapGet sp.data "cache.success" = some (.vbool false) ∧
      sp.status = .internalError := by
  unfold Redistracer.processHook
  rw [h]
  refine ⟨rfl, ⟨_, rfl, ?_, ?_, rfl⟩⟩
  · simp only [Span.setData]
    rw [mapGet_mapSet_ne _ _ (by decide)]
    exact mapGet_mapSet_self _ _ _
  · simp only [Span.setData]
    exact mapGet_mapSet_self _ _ _

/-- Witness for C5 at a concrete GET command whose delegate misses. -/
theorem C5_redis_nil_miss_witness :
    (fun _ : Redistracer.Cmd => some Redistracer.RedisError.nil)
        ⟨"GET", "get", ["get", "user:1"]⟩ =
      some Redistracer.RedisError.nil ∧
    ((Redistracer.processHook ⟨[("db.system", .vstr "redis")], true⟩
        ⟨"main.main", "main.go", 42⟩
        (fun _ => some Redistracer.RedisError.nil) (some sampleSpan)
        ⟨"GET", "get", ["get", "user:1"]⟩).err =
      some Redistracer.RedisError.nil ∧
    ∃ sp : Span,
      (Redistracer.processHook ⟨[("db.system", .vstr "redis")], true⟩
          ⟨"main.main", "main.go", 42⟩
          (fun _ => some Redistracer.RedisError.nil) (some sampleSpan)
          ⟨"GET", "get", ["get", "user:1"]⟩).spans = [sp] ∧
      mapGet sp.data "cache.hit" = some (.vbool false) ∧
      mapGet sp.data "cache.success" = some (.vbool false) ∧
      sp.status = .internalError) :=
  ⟨rfl, C5_redis_nil_miss _ _ _ _ _ rfl⟩

/-- Claim C6 (evaluated at a failing input): for a pipelined batch of
two commands under a parent span with statement-logging enabled, the
pipeline hook's span does NOT carry the command count nor the
concatenated command text — the locally computed span data is
discarded in favour of the configured span data — although its name
is "redis.pipeline " followed by the batch summary. -/
theorem C6_pipeline_span_data_dropped :
    (Redistracer.processPipelineHook ⟨[("db.system", .vstr "redis")], true⟩
        ⟨"main.main", "main.go", 42⟩ (fun _ => none) (some sampleSpan)
        [⟨"GET", "get", ["get", "k1"]⟩, ⟨"SET", "set", ["set", "k2", "v"]⟩]).err =
      none ∧
    ∃ sp : Span,
      (Redistracer.processPipelineHook ⟨[("db.system", .vstr "redis")], true⟩
          ⟨"main.main", "main.go", 42⟩ (fun _ => none) (some sampleSpan)
          [⟨"GET", "get", ["get", "k1"]⟩, ⟨"SET", "set", ["set", "k2", "v"]⟩]).spans =
        [sp] ∧
      sp.op = "redis.pipeline GET SET" ∧
      mapGet sp.data "db.redis.num_cmd" = none ∧
      mapGet sp.data "db.statement" = none ∧
      sp.data = [("db.system", SpanValue.vstr "redis")] :=
  ⟨rfl, ⟨_, rfl, by decide, by decide, by decide, rfl⟩⟩

/-- Claim C1: for RoundTrip with a parent span and a non-empty
propagation-target list, any single target that is not a substring of
the request URL string causes an untraced pass-through (no span, no
header injection), even if an earlier target matched; tracing
proceeds only when every target is a substring of the URL. -/
theorem C1_all_targets_must_match
    (s : Httpclient.SentryRoundTripper)
    (delegate : Httpclient.Request → Option Httpclient.Response × Option String)
    (method : String) (url : Httpclient.URL) (headers : List (String × String))
    (p : Span) (hne : s.tracePropagationTargets ≠ []) :
    ((∃ t ∈ s.tracePropagationTargets,
        Httpclient.strContains url.urlString t = false) →
      s.roundTrip delegate ⟨method, url, headers, some p⟩ =
        { response := (delegate ⟨method, url, headers, some p⟩).1
          err := (delegate ⟨method, url, headers, some p⟩).2
          sentRequest := ⟨method, url, headers, some p⟩
          spans := [] }) ∧
    ((∀ t ∈ s.tracePropagationTargets,
        Httpclient.strContains url.urlString t = true) →
      (s.roundTrip delegate ⟨method, url, headers, some p⟩).spans.length = 1) := by
  have hlen : 0 < s.tracePropagationTargets.length := List.length_pos.2 hne
  constructor
  · intro hex
    have hfalse : Httpclient.propagationAllows url.urlString s.tracePropagationTargets
        = false := (Httpclient.propagationAllows_false_iff _ _).2 hex
    simp [Httpclient.SentryRoundTripper.roundTrip, hfalse, hlen]
  · intro hall
    have htrue : Httpclient.propagationAllows url.urlString s.tracePropagationTargets
        = true := (Httpclient.propagationAllows_true_iff _ _).2 hall
    simp only [Httpclient.SentryRoundTripper.roundTrip, htrue]
    simp only [Bool.not_true, Bool.and_false, if_false]
    rcases delegate _ with ⟨resp, e⟩
    cases resp <;> simp

/-- Sample request URL used by concrete witnesses:
"https://api.example.com/v1/items". -/
def sampleURL : Httpclient.URL :=
  ⟨"https", "api.example.com", "/v1/items", "", ""⟩

/-- Witness for C1: with targets ["api.example.com",
"missing.example"] the first target matches the URL but the second
does not, and the request passes through untraced. -/
theorem C1_all_targets_must_match_witness :
    Httpclient.SentryRoundTripper.roundTrip
        ⟨["api.example.com", "missing.example"], []⟩
        (fun _ => (none, none)) ⟨"GET", sampleURL, [], some sampleSpan⟩ =
      { response := none
        err := none
        sentRequest := ⟨"GET", sampleURL, [], some sampleSpan⟩
        spans := [] } :=
  (C1_all_targets_must_match ⟨["api.example.com", "missing.example"], []⟩
      (fun _ => (none, none)) "GET" sampleURL [] sampleSpan (by decide)).1
    ⟨"missing.example", by decide, by decide⟩

/-- Witness for C4: "GET" classifies as "cache.get" and the
unrecognized "INCR" as the generic "db.redis" label. -/
theorem C4_cache_command_classification_witness :
    Redistracer.toLowerAscii "GET" ∈ ["get", "mget", "hget", "hgetall", "hmget"] ∧
    Redistracer.spanOperationOf "GET" = "cache.get" ∧
    Redistracer.spanOperationOf "INCR" = "db.redis" :=
  ⟨by decide, C4_cache_command_classification.1 "GET" (by decide),
    C4_cache_command_classification.2.2.2.2.1 "INCR" (by decide)⟩

/-- Claim C2: round-tripping a GET request to
"https://api.example.com/v1/items" under a parent span with
propagation targets ["api.example.com"] adds both the Baggage and
Sentry-Trace headers to the outgoing request before delegating, and
starts exactly one span whose transaction name is "GET /v1/items"
(method plus URL path, excluding query string and fragment). -/
theorem C2_traced_get_roundtrip (tags : List (String × String)) (p : Span)
    (delegate : Httpclient.Request → Option Httpclient.Response × Option String) :
    (∃ b st,
      (Httpclient.SentryRoundTripper.roundTrip ⟨["api.example.com"], tags⟩ delegate
          ⟨"GET", sampleURL, [], some p⟩).sentRequest.headers =
        [("Baggage", b), ("Sentry-Trace", st)]) ∧
    ∃ sp : Span,
      (Httpclient.SentryRoundTripper.roundTrip ⟨["api.example.com"], tags⟩ delegate
          ⟨"GET", sampleURL, [], some p⟩).spans = [sp] ∧
      sp.transactionName = "GET /v1/items" ∧
      sp.op = "http.client" := by
  have hprop : Httpclient.propagationAllows sampleURL.urlString ["api.example.com"]
      = true := by decide
  simp only [Httpclient.SentryRoundTripper.roundTrip, hprop]
  simp only [Bool.not_true, Bool.and_false, Bool.false_eq_true, if_false,
    Httpclient.Request.addHeader, Span.setData]
  rcases delegate _ with ⟨resp, e⟩
  cases resp <;> simp <;> decide

/-- Claim C7 counterexample: the log-record forwarder's
"derive with attributes" does NOT leave the original handler's fields
unchanged — at the concrete handler with no attributes, deriving with
one attribute changes the receiver's attribute list in place. -/
theorem C7_counterexample_slog_mutation :
    ((⟨[], "", 0⟩ : Sloghandler.SentrySlogHandler).withAttrs
        [("k", Sloghandler.SlogValue.vstr "v")]).receiverAfter.attributes ≠
      (⟨[], "", 0⟩ : Sloghandler.SentrySlogHandler).attributes := by
  simp [Sloghandler.SentrySlogHandler.withAttrs]

/-- Claim C7 as amended: the breadcrumb forwarder's derivations
return new independent instances and leave the receiver untouched,
while the log-record forwarder's derivations mutate the receiver in
place (appending the attributes, or setting the group) and return
that same mutated instance. -/
theorem C7_amended_derivation_semantics :
    (∀ (s : Slogbreadcrumb.Handler) (attrs : List Sloghandler.SlogAttr),
        (s.withAttrs attrs).receiverAfter = s ∧
        (s.withAttrs attrs).returnsReceiver = false ∧
        (s.withAttrs attrs).returned =
          { s with attributes := s.attributes ++ attrs }) ∧
    (∀ (s : Slogbreadcrumb.Handler) (name : String),
        (s.withGroup name).receiverAfter = s ∧
        (s.withGroup name).returnsReceiver = false ∧
        (s.withGroup name).returned = { s with group := name }) ∧
    (∀ (s : Sloghandler.SentrySlogHandler) (attrs : List Sloghandler.SlogAttr),
        (s.withAttrs attrs).returnsReceiver = true ∧
        (s.withAttrs attrs).receiverAfter = (s.withAttrs attrs).returned ∧
        (s.withAttrs attrs).receiverAfter =
          { s with attributes := s.attributes ++ attrs }) ∧
    (∀ (s : Sloghandler.SentrySlogHandler) (name : String),
        (s.withGroup name).returnsReceiver = true ∧
        (s.withGroup name).receiverAfter = (s.withGroup name).returned ∧
        (s.withGroup name).receiverAfter = { s with group := name }) :=
  ⟨fun _ _ => ⟨rfl, rfl, rfl⟩, fun _ _ => ⟨rfl, rfl, rfl⟩,
   fun _ _ => ⟨rfl, rfl, rfl⟩, fun _ _ => ⟨rfl, rfl, rfl⟩⟩

namespace Sloghandler

theorem convList_append (l1 l2 : List SlogAttr) :
    convList (l1 ++ l2) = convList l1 ++ convList l2 := by
  induction l1 with
  | nil => simp [convList]
  | cons a rest ih => simp [convList, ih]

mutual

theorem convAttr_eq_conv_leaves : ∀ a : SlogAttr,
    slogAttrToSentryAttr a = convList (leafAttrs a)
  | (k, .vany a) => by
      simp [slogAttrToSentryAttr, leafAttrs, convList]
  | (k, .vbool b) => by
      simp [slogAttrToSentryAttr, leafAttrs, convList]
  | (k, .vduration ns) => by
      simp [slogAttrToSentryAttr, leafAttrs, convList]
  | (k, .vfloat bits) => by
      simp [slogAttrToSentryAttr, leafAttrs, convList]
  | (k, .vint i) => by
      simp [slogAttrToSentryAttr, leafAttrs, convList]
  | (k, .vstr s) => by
      simp [slogAttrToSentryAttr, leafAttrs, convList]
  | (k, .vtime t) => by
      simp [slogAttrToSentryAttr, leafAttrs, convList]
  | (k, .vuint n) => by
      simp [slogAttrToSentryAttr, leafAttrs, convList]
  | (k, .vgroup attrs) => by
      simp only [slogAttrToSentryAttr, leafAttrs]
      exact convList_eq_conv_leafList attrs
  | (k, .vlogValuer s) => by
      simp [slogAttrToSentryAttr, leafAttrs, convList]

theorem convList_eq_conv_leafList : ∀ l : List SlogAttr,
    convList l = convList (leafList l)
  | [] => by rw [leafList]
  | a :: rest => by
      rw [convList, leafList, convList_append,
        convAttr_eq_conv_leaves a, convList_eq_conv_leafList rest]

end

end Sloghandler

/-- Claim C9: converting a group-kind attribute yields the converted
forms of every leaf attribute the group transitively contains, and
the handler's own group label, when non-empty, is appended exactly
once as its own "group" attribute between the handler attributes and
the record attributes. -/
theorem C9_group_flattening :
    (∀ (k : String) (attrs : List Sloghandler.SlogAttr),
        Sloghandler.slogAttrToSentryAttr (k, .vgroup attrs) =
          Sloghandler.convList (Sloghandler.leafList attrs)) ∧
    (∀ (s : Sloghandler.SentrySlogHandler) (record : Sloghandler.Record),
        s.group ≠ "" →
        (s.handle record).loggerAttrs =
          Sloghandler.convList s.attributes ++
            [.astr "group" s.group] ++
            Sloghandler.convList record.attrs) := by
  constructor
  · intro k attrs
    simp only [Sloghandler.slogAttrToSentryAttr]
    exact Sloghandler.convList_eq_conv_leafList attrs
  · intro s record h
    simp [Sloghandler.SentrySlogHandler.handle, h]

/-- Witness for C9: a handler with one attribute and group label "g"
handling a record with one nested group attribute. -/
theorem C9_group_flattening_witness :
    (("g" : String) ≠ "") ∧
    ((⟨[("x", .vstr "1")], "g", 0⟩ : Sloghandler.SentrySlogHandler).handle
        ⟨"msg", 0, [("grp", .vgroup [("y", .vint 2), ("z", .vgroup [("w", .vbool true)])])]⟩).loggerAttrs =
      Sloghandler.convList [("x", .vstr "1")] ++
        [.astr "group" "g"] ++
        Sloghandler.convList
          [("grp", .vgroup [("y", .vint 2), ("z", .vgroup [("w", .vbool true)])])] :=
  ⟨by decide,
    C9_group_flattening.2 ⟨[("x", .vstr "1")], "g", 0⟩
      ⟨"msg", 0, [("grp", .vgroup [("y", .vint 2), ("z", .vgroup [("w", .vbool true)])])]⟩
      (by decide)⟩

/-- Claim C10: for every log record whose severity level is not
exactly one of the four standard values (debug = -4, info = 0,
warn = 4, error = 8), the log-record forwarder's handle operation
still sets the assembled attributes on the per-call logger but emits
no leveled log call at all, and returns nil to the caller. -/
theorem C10_nonstandard_level_no_emit (s : Sloghandler.SentrySlogHandler)
    (record : Sloghandler.Record)
    (h1 : record.level ≠ -4) (h2 : record.level ≠ 0)
    (h3 : record.level ≠ 4) (h4 : record.level ≠ 8) :
    (s.handle record).emitted = none ∧
    (s.handle record).returnedError = none ∧
    (s.handle record).loggerAttrs =
      Sloghandler.convList s.attributes ++
        (if s.group ≠ "" then [.astr "group" s.group] else []) ++
        Sloghandler.convList record.attrs := by
  refine ⟨?_, rfl, ?_⟩
  · simp [Sloghandler.SentrySlogHandler.handle, h1, h2, h3, h4]
  · simp only [Sloghandler.SentrySlogHandler.handle]
    split_ifs <;> simp

/-- Witness for C10 at the custom level 2 (between info and warn). -/
theorem C10_nonstandard_level_no_emit_witness :
    ((2 : Int) ≠ -4 ∧ (2 : Int) ≠ 0 ∧ (2 : Int) ≠ 4 ∧ (2 : Int) ≠ 8) ∧
    (((⟨[("x", .vstr "1")], "", 0⟩ : Sloghandler.SentrySlogHandler).handle
        ⟨"msg", 2, [("y", .vint 7)]⟩).emitted = none ∧
     ((⟨[("x", .vstr "1")], "", 0⟩ : Sloghandler.SentrySlogHandler).handle
        ⟨"msg", 2, [("y", .vint 7)]⟩).returnedError = none ∧
     ((⟨[("x", .vstr "1")], "", 0⟩ : Sloghandler.SentrySlogHandler).handle
        ⟨"msg", 2, [("y", .vint 7)]⟩).loggerAttrs =
       Sloghandler.convList [("x", .vstr "1")] ++
         (if ("" : String) ≠ "" then [.astr "group" ""] else []) ++
         Sloghandler.convList [("y", .vint 7)]) :=
  ⟨⟨by decide, by decide, by decide, by decide⟩,
    C10_nonstandard_level_no_emit ⟨[("x", .vstr "1")], "", 0⟩ ⟨"msg", 2, [("y", .vint 7)]⟩
      (by decide) (by decide) (by decide) (by decide)⟩

namespace SentryIntegration

theorem Span.setData_tags (s : Span) (k : String) (v : SpanValue) :
    (s.setData k v).tags = s.tags := rfl

theorem Span.setData_status (s : Span) (k : String) (v : SpanValue) :
    (s.setData k v).status = s.status := rfl

theorem Span.setTag_data (s : Span) (k v : String) :
    (s.setTag k v).data = s.data := rfl

theorem Span.setTag_mem_self (s : Span) (k v : String) :
    (k, v) ∈ (s.setTag k v).tags := by
  unfold Span.setTag
  by_cases h : s.tags.any (fun p => p.1 = k)
  · simp only [h, if_true]
    rw [List.any_eq_true] at h
    obtain ⟨p, hp, hpk⟩ := h
    rw [decide_eq_true_eq] at hpk
    exact List.mem_map.2 ⟨p, hp, by simp [hpk]⟩
  · simp only [h, if_false]
    simp

theorem Span.setTag_mem_ne (s : Span) (k v k0 v0 : String) (hne : k0 ≠ k)
    (h : (k0, v0) ∈ s.tags) : (k0, v0) ∈ (s.setTag k v).tags := by
  unfold Span.setTag
  by_cases hany : s.tags.any (fun p => p.1 = k)
  · simp only [hany, if_true]
    exact List.mem_map.2 ⟨(k0, v0), h, by simp [hne]⟩
  · simp only [hany, if_false]
    simp [h]

theorem foldl_setTag_mem_of_ne (tags : List (String × String)) :
    ∀ (s : Span) (k0 v0 : String), (∀ kv ∈ tags, kv.1 ≠ k0) →
      (k0, v0) ∈ s.tags →
      (k0, v0) ∈ (tags.foldl (fun sp kv => sp.setTag kv.1 kv.2) s).tags := by
  induction tags with
  | nil => exact fun s k0 v0 _ h => h
  | cons hd tl ih =>
      intro s k0 v0 hne h
      have h1 : (k0, v0) ∈ (s.setTag hd.1 hd.2).tags :=
        Span.setTag_mem_ne s hd.1 hd.2 k0 v0
          (Ne.symm (hne hd (List.mem_cons_self _ _))) h
      exact ih _ k0 v0 (fun kv hkv => hne kv (List.mem_cons_of_mem _ hkv)) h1

theorem foldl_setTag_applies (tags : List (String × String)) :
    ∀ s : Span, tags.Pairwise (fun a b => a.1 ≠ b.1) →
      ∀ kv ∈ tags,
        (kv.1, kv.2) ∈ (tags.foldl (fun sp kv => sp.setTag kv.1 kv.2) s).tags := by
  induction tags with
  | nil => simp
  | cons hd tl ih =>
      intro s hpw kv hmem
      rw [List.pairwise_cons] at hpw
      obtain ⟨hhd, htl⟩ := hpw
      rcases List.mem_cons.1 hmem with h | h
      · subst h
        have h1 : (kv.1, kv.2) ∈ (s.setTag kv.1 kv.2).tags :=
          Span.setTag_mem_self s kv.1 kv.2
        exact foldl_setTag_mem_of_ne tl _ kv.1 kv.2
          (fun b hb => Ne.symm (hhd b hb)) h1
      · exact ih _ htl kv h

theorem foldl_setTag_data (tags : List (String × String)) :
    ∀ s : Span, (tags.foldl (fun sp kv => sp.setTag kv.1 kv.2) s).data = s.data := by
  induction tags with
  | nil => intro s; rfl
  | cons hd tl ih => intro s; rw [List.foldl_cons, ih, Span.setTag_data]

theorem foldl_setTag_status (tags : List (String × String)) :
    ∀ s : Span, (tags.foldl (fun sp kv => sp.setTag kv.1 kv.2) s).status = s.status := by
  induction tags with
  | nil => intro s; rfl
  | cons hd tl ih => intro s; rw [List.foldl_cons, ih]; rfl

end SentryIntegration

namespace Pgxtracer

open SentryIntegration

/-- The string stored under `db.operation` by `TraceQueryEnd`, in the
source's check order (a characterization used by the proofs). -/
def opString (ct : CommandTag) : String :=
  if ct.insertTag then "INSERT"
  else if ct.selectTag then "SELECT"
  else if ct.deleteTag then "DELETE"
  else if ct.updateTag then "UPDATE"
  else ct.tag

/-- The connection-metadata step of `TraceQueryEnd`. -/
def cfgStep (cfg : Option ConnConfig) (sp : Span) : Span :=
  match cfg with
  | some c =>
      ((sp.setData "db.name" (.vstr c.database)).setData
        "server.address" (.vstr c.host)).setData
        "server.port" (.vstr (toString (c.port % 2 ^ 16)))
  | none => sp

/-- The error step of `TraceQueryEnd`. -/
def errStep (qe : Option String) (sp : Span) : Span :=
  match qe with
  | some e => ({ sp with status := .internalError }).setData "error" (.vstr e)
  | none => sp

theorem traceQueryEnd_eq (t : Tracer) (sp : Span) (cfg : Option ConnConfig)
    (data : TraceQueryEndData) :
    t.traceQueryEnd ⟨some sp⟩ cfg data =
      some { errStep data.queryErr (cfgStep cfg
        ((t.tags.foldl (fun sp kv => sp.setTag kv.1 kv.2) sp).setData
          "db.operation" (.vstr (opString data.commandTag)))) with finished := true } := by
  simp only [Tracer.traceQueryEnd]
  cases data.queryErr <;> cases cfg <;>
    simp only [opString, cfgStep, errStep] <;> split_ifs <;> rfl

theorem cfgStep_tags (cfg : Option ConnConfig) (sp : Span) :
    (cfgStep cfg sp).tags = sp.tags := by
  cases cfg <;> rfl

theorem errStep_tags (qe : Option String) (sp : Span) :
    (errStep qe sp).tags = sp.tags := by
  cases qe <;> rfl

theorem mapGet_cfgStep_op (cfg : Option ConnConfig) (sp : Span) :
    mapGet (cfgStep cfg sp).data "db.operation" = mapGet sp.data "db.operation" := by
  cases cfg with
  | none => rfl
  | some c =>
      simp only [cfgStep, Span.setData]
      rw [mapGet_mapSet_ne _ _ (by decide), mapGet_mapSet_ne _ _ (by decide),
        mapGet_mapSet_ne _ _ (by decide)]

theorem mapGet_errStep_op (qe : Option String) (sp : Span) :
    mapGet (errStep qe sp).data "db.operation" = mapGet sp.data "db.operation" := by
  cases qe with
  | none => rfl
  | some e =>
      simp only [errStep, Span.setData]
      rw [mapGet_mapSet_ne _ _ (by decide)]

end Pgxtracer

open SentryIntegration

/-- Claim C8: the pgx query tracer's start callback opens a span
without requiring a pre-existing parent and returns a context
carrying it; the end callback is a no-op without a span in context,
and otherwise applies the configured tags (each configured key/value
pair, the tag map's keys being distinct), sets db.operation per the
driver's command-tag predicates (falling back to the tag's text),
marks an internal-error status and records the error text on
failure, and finishes the span. -/
theorem C8_pgx_query_tracer (t : Pgxtracer.Tracer) (ctx : Pgxtracer.Ctx) (sql : String)
    (cfg : Option Pgxtracer.ConnConfig) (sp : Span)
    (data : Pgxtracer.TraceQueryEndData) :
    ((t.traceQueryStart ctx sql).span =
      some (Span.setData
        { op := "db.sql.query", transactionName := sql, description := sql,
          data := [], tags := [], status := .undefined, finished := false }
        "db.system" (.vstr "postgresql"))) ∧
    (t.traceQueryEnd ⟨none⟩ cfg data = none) ∧
    (∃ fin : Span, t.traceQueryEnd ⟨some sp⟩ cfg data = some fin ∧
      fin.finished = true ∧
      (t.tags.Pairwise (fun a b => a.1 ≠ b.1) →
        ∀ kv ∈ t.tags, (kv.1, kv.2) ∈ fin.tags) ∧
      (data.commandTag.insertTag = true →
        mapGet fin.data "db.operation" = some (.vstr "INSERT")) ∧
      (data.commandTag.insertTag = false → data.commandTag.selectTag = true →
        mapGet fin.data "db.operation" = some (.vstr "SELECT")) ∧
      (data.commandTag.insertTag = false → data.commandTag.selectTag = false →
        data.commandTag.deleteTag = true →
        mapGet fin.data "db.operation" = some (.vstr "DELETE")) ∧
      (data.commandTag.insertTag = false → data.commandTag.selectTag = false →
        data.commandTag.deleteTag = false → data.commandTag.updateTag = true →
        mapGet fin.data "db.operation" = some (.vstr "UPDATE")) ∧
      (data.commandTag.insertTag = false → data.commandTag.selectTag = false →
        data.commandTag.deleteTag = false → data.commandTag.updateTag = false →
        mapGet fin.data "db.operation" = some (.vstr data.commandTag.tag)) ∧
      (∀ e, data.queryErr = some e → fin.status = .internalError ∧
        mapGet fin.data "error" = some (.vstr e))) := by
  refine ⟨rfl, rfl, ?_⟩
  rw [Pgxtracer.traceQueryEnd_eq]
  have htags :
      (Pgxtracer.errStep data.queryErr (Pgxtracer.cfgStep cfg
        ((t.tags.foldl (fun sp kv => sp.setTag kv.1 kv.2) sp).setData
          "db.operation" (.vstr (Pgxtracer.opString data.commandTag))))).tags =
        (t.tags.foldl (fun sp kv => sp.setTag kv.1 kv.2) sp).tags := by
    rw [Pgxtracer.errStep_tags, Pgxtracer.cfgStep_tags, Span.setData_tags]
  have hop :
      mapGet (Pgxtracer.errStep data.queryErr (Pgxtracer.cfgStep cfg
        ((t.tags.foldl (fun sp kv => sp.setTag kv.1 kv.2) sp).setData
          "db.operation" (.vstr (Pgxtracer.opString data.commandTag))))).data
          "db.operation" =
        some (.vstr (Pgxtracer.opString data.commandTag)) := by
    rw [Pgxtracer.mapGet_errStep_op, Pgxtracer.mapGet_cfgStep_op, Span.setData]
    exact mapGet_mapSet_self _ _ _
  refine ⟨_, rfl, rfl, ?_, ?_, ?_, ?_, ?_, ?_, ?_⟩
  · intro hpw kv hkv
    show (kv.1, kv.2) ∈ (Pgxtracer.errStep _ _).tags
    rw [htags]
    exact foldl_setTag_applies t.tags sp hpw kv hkv
  · intro h
    show mapGet (Pgxtracer.errStep _ _).data "db.operation" = _
    rw [hop]
    simp [Pgxtracer.opString, h]
  · intro h1 h2
    show mapGet (Pgxtracer.errStep _ _).data "db.operation" = _
    rw [hop]
    simp [Pgxtracer.opString, h1, h2]
  · intro h1 h2 h3
    show mapGet (Pgxtracer.errStep _ _).data "db.operation" = _
    rw [hop]
    simp [Pgxtracer.opString, h1, h2, h3]
  · intro h1 h2 h3 h4
    show mapGet (Pgxtracer.errStep _ _).data "db.operation" = _
    rw [hop]
    simp [Pgxtracer.opString, h1, h2, h3, h4]
  · intro h1 h2 h3 h4
    show mapGet (Pgxtracer.errStep _ _).data "db.operation" = _
    rw [hop]
    simp [Pgxtracer.opString, h1, h2, h3, h4]
  · intro e he
    rw [he]
    constructor
    · rfl
    · show mapGet (Pgxtracer.errStep (some e) _).data "error" = _
      simp only [Pgxtracer.errStep, Span.setData]
      exact mapGet_mapSet_self _ _ _

/-- Witness for C8: an INSERT command tag on a failed query against a
concrete connection configuration. -/
theorem C8_pgx_query_tracer_witness :
    ∃ fin : SentryIntegration.Span,
      Pgxtracer.Tracer.traceQueryEnd ⟨[("team", "core")]⟩ ⟨some sampleSpan⟩
          (some ⟨"appdb", "localhost", 5432⟩) ⟨⟨"INSERT 0 1"⟩, some "boom"⟩ =
        some fin ∧
      fin.finished = true ∧
      ("team", "core") ∈ fin.tags ∧
      mapGet fin.data "db.operation" = some (.vstr "INSERT") ∧
      fin.status = .internalError ∧
      mapGet fin.data "error" = some (.vstr "boom") := by
  obtain ⟨fin, h1, h2, htag, hins, _, _, _, _, herr⟩ :=
    (C8_pgx_query_tracer ⟨[("team", "core")]⟩ ⟨none⟩ "SELECT 1"
      (some ⟨"appdb", "localhost", 5432⟩) sampleSpan ⟨⟨"INSERT 0 1"⟩, some "boom"⟩).2.2
  exact ⟨fin, h1, h2, htag (by simp) ("team", "core") (by simp), hins (by decide),
    (herr "boom" rfl).1, (herr "boom" rfl).2⟩
